import Mathlib

/-!
Verification of the Runbook Tutor action handlers (`src/actions/actions.py`)
against their natural-language specification.

The Python module is shallowly embedded: JSON documents become the `Json`
inductive, Python dictionaries become association lists (Python dicts are
insertion ordered, and all lookups here go through string keys), exceptions
become `Except Err` results, and the file system / HTTP responses become
explicit function parameters.  Each handler is translated as directly as the
source allows; helper functions keep the source's names where possible.
-/

/-- The Python exceptions and error conditions the handlers can hit. -/
inductive Err where
  | keyError
  | typeError
  | fileNotFound
  | parseError
  | valueError
  | indexError
  | jsonDecodeError
deriving Repr, DecidableEq

/-- Parsed JSON / YAML documents (Python objects after `json.loads` /
`yaml.safe_load`).  Objects are insertion-ordered association lists, matching
Python dict semantics. -/
inductive Json where
  | null
  | bool (b : Bool)
  | num (n : Int)
  | str (s : String)
  | arr (xs : List Json)
  | obj (kvs : List (String × Json))
deriving Repr

/-- Python dict read `d[k]`: `some` value for the first matching key of an
object, `none` (a `KeyError`/`TypeError`) otherwise. -/
def Json.get? : Json → String → Option Json
  | .obj kvs, k => kvs.lookup k
  | _, _ => none

/-- Assignment into an association list: Python dict item assignment keeps an
existing key's position and appends a new key at the end. -/
def setAssoc (kvs : List (String × Json)) (k : String) (v : Json) :
    List (String × Json) :=
  match kvs with
  | [] => [(k, v)]
  | (k', v') :: rest =>
    if k' == k then (k', v) :: rest else (k', v') :: setAssoc rest k v

/-- Python dict item assignment `d[k] = v`; `none` models the `TypeError`
raised when the target is not a dict. -/
def Json.setKey : Json → String → Json → Option Json
  | .obj kvs, k, v => some (.obj (setAssoc kvs k v))
  | _, _, _ => none

/-- Python `str.title()` for ASCII strings: a letter that follows a
non-letter is uppercased, a letter that follows a letter is lowercased. -/
def pyTitleAux : Bool → List Char → List Char
  | _, [] => []
  | prevAlpha, c :: cs =>
    if c.isAlpha then
      (if prevAlpha then c.toLower else c.toUpper) :: pyTitleAux true cs
    else
      c :: pyTitleAux false cs

/-- Python `str.title()` (ASCII subset). -/
def pyTitle (s : String) : String := ⟨pyTitleAux false s.data⟩

/-- One entry of the template's tool list: either an already-normalized tool
dict or a bare tool-name string (the two shapes `deploy_agent` accepts). -/
inductive ToolEntry where
  | obj (kvs : List (String × Json))
  | str (s : String)

/-- The per-entry tool normalization in `deploy_agent` (lines 144-151):
dict entries are appended unchanged, a bare string `t` becomes
`{"config": {"name": t.title()}, "type": t, "name": t.title()}`. -/
def normalizeTool : ToolEntry → Json
  | .obj kvs => .obj kvs
  | .str t =>
    .obj [("config", .obj [("name", .str (pyTitle t))]),
          ("type", .str t),
          ("name", .str (pyTitle t))]

/-- Reading a file and decoding it: the file may be absent
(`FileNotFoundError`), present but undecodable (`json.JSONDecodeError` /
`yaml` errors), or decoded to a value. -/
inductive FileRead (α : Type) where
  | missing
  | malformed
  | ok (v : α)

/-- One entry of `config.json`'s `ActionPackageMapping` (the fields
`get_actions` reads: `name`, `path`, `actionServerPort`). -/
structure ConfigEntry where
  name : String
  path : String
  actionServerPort : Int
deriving Repr, DecidableEq

/-- The `ActionPackage` pydantic model: `name`, `port`, `api_spec`. -/
structure ActionPackage where
  name : String
  port : Int
  api_spec : Json
deriving Repr

/-- The module-level `HARDCODED_INTERNAL_ACTIONS` constant (its `names`
field). -/
def HARDCODED_INTERNAL_ACTIONS : List String :=
  ["Sema4 Desktop Action Getter", "Thread Monitor", "Agent Deployer",
   "Retreival"]

/-- The per-entry loop of `get_actions` (lines 80-92): for each mapping
entry, first read and decode `<path>/metadata.json` (any failure aborts the
whole call), then skip the entry when its name is in the exclusion list,
otherwise append the `ActionPackage`. -/
def getActionsLoop (readMeta : String → FileRead Json)
    (internal : List String) : List ConfigEntry → Except Err (List ActionPackage)
  | [] => .ok []
  | e :: es =>
    match readMeta (e.path ++ "/metadata.json") with
    | .missing => .error .fileNotFound
    | .malformed => .error .parseError
    | .ok api_spec =>
      if e.name ∈ internal then
        getActionsLoop readMeta internal es
      else
        match getActionsLoop readMeta internal es with
        | .error err => .error err
        | .ok rest =>
          .ok ({ name := e.name, port := e.actionServerPort,
                 api_spec := api_spec } :: rest)

/-- Embedding of `get_actions` (lines 60-93).  `env` is `os.environ["ROBOCORP_HOME"]`
(`none` = unset, a `KeyError`); `readConfig` reads and decodes the desktop
config file into its `ActionPackageMapping` list; `readMeta` reads and
decodes a metadata file; `internal` is the caller-supplied
`internal_actions.names`. -/
def getActionsHome (home : String)
    (readConfig : String → FileRead (List ConfigEntry))
    (readMeta : String → FileRead Json)
    (internal : List String) : Except Err (List ActionPackage) :=
  match readConfig (home ++ "/sema4ai-desktop/config.json") with
  | .missing => .error .fileNotFound
  | .malformed => .error .parseError
  | .ok entries => getActionsLoop readMeta internal entries

/-- Entry point of `get_actions`: line 74 reads `os.environ["ROBOCORP_HOME"]`
(`none` = unset, a `KeyError`) and the rest proceeds from that home
directory. -/
def getActions (env : Option String)
    (readConfig : String → FileRead (List ConfigEntry))
    (readMeta : String → FileRead Json)
    (internal : List String) : Except Err (List ActionPackage) :=
  match env with
  | none => .error .keyError
  | some home => getActionsHome home readConfig readMeta internal

/-- Whether an `Except` result is an error. -/
def isError : Except Err (List ActionPackage) → Bool
  | .error _ => true
  | .ok _ => false

/-- The agent record `deploy_agent` consumes (the template's first agent
definition after the caller's overrides).  The fields are the dict keys the
function reads: `name`, `description`, `system-prompt`, `retrieval-prompt`,
`model`, and the optional `tools` and `files` lists. -/
structure Agent where
  name : String
  description : String
  systemPrompt : String
  retrievalPrompt : String
  model : String
  tools : Option (List ToolEntry)
  files : Option (List String)

/-- The tool list built by `deploy_agent` (lines 144-151): empty when the
agent has no `tools` key, otherwise each entry normalized in order. -/
def toolsOf (agent : Agent) : List Json :=
  match agent.tools with
  | none => []
  | some ts => ts.map normalizeTool

/-- The assistant-creation payload construction of `deploy_agent`
(lines 135-166), up to the POST.  `fs` maps a resolved path to the file's
text (`none` = `FileNotFoundError`/`OSError`).  Reading the system prompt
falls back to the literal string (the `try`/`except` on lines 136-139);
reading the retrieval prompt has no handler (line 142), so a failed read
aborts with the error. -/
def deployAgentPayload (fs : String → Option String) (agent : Agent) :
    Except Err Json :=
  let system_prompt :=
    match fs agent.systemPrompt with
    | some text => text
    | none => agent.systemPrompt
  match fs agent.retrievalPrompt with
  | none => .error .fileNotFound
  | some retrieval_prompt =>
    .ok (.obj
      [("name", .str agent.name),
       ("config", .obj
         [("configurable", .obj
           [("type==agent/retrieval_description", .str retrieval_prompt),
            ("type==agent/agent_type", .str agent.model),
            ("type==agent/system_message", .str system_prompt),
            ("type==agent/tools", .arr (toolsOf agent)),
            ("type", .str "agent"),
            ("type==agent/interrupt_before_action", .bool false),
            ("type==agent/description", .str agent.description)])])])

/-- The `config.configurable` sub-object of a payload. -/
def configurableOf (p : Json) : Option Json :=
  (p.get? "config").bind (fun c => c.get? "configurable")

/-- The key list of the `config.configurable` sub-object of a payload
result. -/
def configurableKeys (r : Except Err Json) : Option (List String) :=
  match r with
  | .error _ => none
  | .ok p =>
    match configurableOf p with
    | some (.obj l) => some (l.map Prod.fst)
    | _ => none

/-- The `type==agent/system_message` entry of a payload result. -/
def payloadSystemMessage (r : Except Err Json) : Option Json :=
  match r with
  | .error _ => none
  | .ok p => (configurableOf p).bind (fun c => c.get? "type==agent/system_message")

/-- Example file system used to exercise the deployment payload: the
retrieval prompt path resolves, the system prompt string is not a readable
path. -/
def exFs : String → Option String :=
  fun p => if p == "retrieval.md" then some "RETRIEVAL TEXT" else none

/-- Example agent record for the deployment payload. -/
def exAgent : Agent :=
  { name := "Tutor"
    description := "A tutor agent"
    systemPrompt := "You are a tutor."
    retrievalPrompt := "retrieval.md"
    model := "GPT 4 Turbo"
    tools := some [.str "search"]
    files := none }

/-- Example registry for `get_actions`: three action packages, one of which
is also on the hardcoded internal list. -/
def exEntries : List ConfigEntry :=
  [{ name := "Sheets", path := "/a", actionServerPort := 8101 },
   { name := "Thread Monitor", path := "/b", actionServerPort := 8102 },
   { name := "Mail", path := "/c", actionServerPort := 8103 }]

/-- Example desktop config read: the registry lives at the expected path. -/
def exReadConfig : String → FileRead (List ConfigEntry) :=
  fun p => if p == "/home/sema4ai-desktop/config.json" then .ok exEntries
           else .missing

/-- Example metadata read: every metadata file decodes (to its own path,
standing for an opaque document). -/
def exReadMeta : String → FileRead Json := fun p => .ok (.str p)

/-- Example metadata read with one missing file (the excluded entry's). -/
def exReadMetaBad : String → FileRead Json :=
  fun p => if p == "/b/metadata.json" then .missing else .ok (.str p)

mutual
/-- Python `repr` of a parsed JSON value (as used when a dict or list is
interpolated into an f-string). -/
def pyRepr : Json → String
  | .null => "None"
  | .bool b => if b then "True" else "False"
  | .num n => toString n
  | .str s => "\x27" ++ s ++ "\x27"
  | .arr xs => "[" ++ pyReprList xs ++ "]"
  | .obj kvs => "\x7b" ++ pyReprFields kvs ++ "\x7d"

def pyReprList : List Json → String
  | [] => ""
  | [x] => pyRepr x
  | x :: xs => pyRepr x ++ ", " ++ pyReprList xs

def pyReprFields : List (String × Json) → String
  | [] => ""
  | [(k, v)] => "\x27" ++ k ++ "\x27: " ++ pyRepr v
  | (k, v) :: kvs => "\x27" ++ k ++ "\x27: " ++ pyRepr v ++ ", " ++ pyReprFields kvs
end

/-- Python `str` of a parsed JSON value, as an f-string renders it: a bare
string interpolates without quotes, containers use `repr` of their
elements. -/
def pyStr : Json → String
  | .str s => s
  | v => pyRepr v

/-- The `try` body of `get_agent_runbook` (lines 366-371):
`resp.json()["config"]["configurable"]["type==agent/system_message"]`.
`body` is the response content (`none` = not parseable as JSON); each step
can raise (`KeyError`/`TypeError`), modelled as `Except`. -/
def tryRunbook (body : Option Json) : Except Err Json :=
  match body with
  | none => .error .jsonDecodeError
  | some j =>
    match j.get? "config" with
    | none => .error .keyError
    | some c =>
      match c.get? "configurable" with
      | none => .error .keyError
      | some cc =>
        match cc.get? "type==agent/system_message" with
        | none => .error .keyError
        | some v => .ok v

/-- Embedding of `get_agent_runbook` (lines 354-373): the bare `except:` collapses every
failure of the lookup into the sentinel string. -/
def getAgentRunbook (body : Option Json) : Json :=
  match tryRunbook body with
  | .ok v => v
  | .error _ => .str "Did not find the runbook"

/-- The nested-lookup chain written compositionally (the spec's reading of
the same access path). -/
def runbookLookup (body : Option Json) : Option Json :=
  ((body.bind (fun j => j.get? "config")).bind
    (fun c => c.get? "configurable")).bind
    (fun cc => cc.get? "type==agent/system_message")

/-- An example fetched-assistant body holding a runbook. -/
def exAssistantBody : Json :=
  .obj [("assistant_id", .str "a1"),
        ("name", .str "Tutor"),
        ("public", .bool true),
        ("config", .obj
          [("configurable", .obj
            [("type", .str "agent"),
             ("type==agent/system_message", .str "THE RUNBOOK")])])]

/-- The payload `update_agent_runbook` PUTs back: `{name, config, public}`
(lines 397-401). -/
structure PutPayload where
  name : Json
  config : Json
  public : Json

/-- Handling of the PUT response in `update_agent_runbook` (lines 405-408):
HTTP 200 yields the fixed success string; otherwise the body is parsed as
JSON (`none` = unparseable, raising `requests`' JSON decode error) and
interpolated into the failure string. -/
def putResponseResult (status : Nat) (body : Option Json) :
    Except Err String :=
  if status == 200 then .ok "Successfully updated!"
  else
    match body with
    | none => .error .jsonDecodeError
    | some j =>
      .ok ("Failed with status code: " ++ toString status
        ++ ", message is " ++ pyStr j)

/-- Embedding of `update_agent_runbook` (lines 376-408).  `getBody` is the parsed GET
response (`none` = unparseable); the function reads `name`, `public` and
`config`, assigns `config["configurable"]["type==agent/system_message"]`,
PUTs the rebuilt payload (`put` returns the response status and parsed
body), and post-processes the response. -/
def updateAgentRunbook (getBody : Option Json) (new_runbook : String)
    (put : PutPayload → Nat × Option Json) : Except Err String :=
  match getBody with
  | none => .error .jsonDecodeError
  | some g =>
    match g.get? "name", g.get? "public", g.get? "config" with
    | some name, some public, some config =>
      match config.get? "configurable" with
      | none => .error .keyError
      | some configurable =>
        match configurable.setKey "type==agent/system_message"
            (.str new_runbook) with
        | none => .error .typeError
        | some configurable' =>
          match config.setKey "configurable" configurable' with
          | none => .error .typeError
          | some config' =>
            let resp := put { name := name, config := config',
                              public := public }
            putResponseResult resp.1 resp.2
    | _, _, _ => .error .keyError

/-- One message dict from a thread's history.  The fields the renderer
accesses; `none` means the key is absent from the dict (so accessing it
raises `KeyError`). -/
structure Message where
  type : String
  content : Option String
  tool_calls : Option (List Json)
  name : Option String

/-- The message-processing loop of `get_latest_thread` (lines 320-326): an
`ai` message reads `tool_calls` unconditionally and is emitted only when the
list is empty, a `human` message emits its content, a `tool` message emits
its name and the first 100 characters of its content, anything else is
skipped. -/
def renderLoop : List Message → Except Err (List String)
  | [] => .ok []
  | m :: ms =>
    if m.type == "ai" then
      match m.tool_calls with
      | none => .error .keyError
      | some tc =>
        if tc.isEmpty then
          match m.content with
          | none => .error .keyError
          | some c =>
            match renderLoop ms with
            | .error e => .error e
            | .ok rest => .ok (("AI: " ++ c) :: rest)
        else renderLoop ms
    else if m.type == "human" then
      match m.content with
      | none => .error .keyError
      | some c =>
        match renderLoop ms with
        | .error e => .error e
        | .ok rest => .ok (("Human: " ++ c) :: rest)
    else if m.type == "tool" then
      match m.name with
      | none => .error .keyError
      | some n =>
        match m.content with
        | none => .error .keyError
        | some c =>
          match renderLoop ms with
          | .error e => .error e
          | .ok rest =>
            .ok (("Tool: " ++ n ++ "\n  Response: " ++ c.take 100) :: rest)
    else renderLoop ms

/-- The transcript rendering of `get_latest_thread` (lines 315-329): the
emitted lines joined with a blank line between them. -/
def renderMessages (msgs : List Message) : Except Err String :=
  match renderLoop msgs with
  | .error e => .error e
  | .ok lines => .ok (String.intercalate "\n\n" lines)

/-- The spec's per-message rendering rule, written independently of the
loop: `ai` without tool calls renders as `AI: <content>`, `human` as
`Human: <content>`, `tool` as `Tool: <name>\n  Response: <first 100
characters of content>`, everything else is dropped. -/
def specLine (m : Message) : Option String :=
  if m.type = "ai" then
    if (m.tool_calls.getD []).isEmpty then
      some ("AI: " ++ m.content.getD "")
    else none
  else if m.type = "human" then
    some ("Human: " ++ m.content.getD "")
  else if m.type = "tool" then
    some ("Tool: " ++ m.name.getD "" ++ "\n  Response: "
      ++ (m.content.getD "").take 100)
  else none

/-- The fields a message must carry for the renderer to reach it without a
`KeyError`. -/
def fieldsPresent (m : Message) : Prop :=
  (m.type = "ai" → m.tool_calls.isSome ∧ m.content.isSome)
  ∧ (m.type = "human" → m.content.isSome)
  ∧ (m.type = "tool" → m.name.isSome ∧ m.content.isSome)

instance (m : Message) : Decidable (fieldsPresent m) := by
  unfold fieldsPresent
  exact inferInstance

/-- The three-message example transcript from the spec. -/
def exMsgs : List Message :=
  [{ type := "human", content := some "hi", tool_calls := none, name := none },
   { type := "ai", content := some "hello", tool_calls := some [],
     name := none },
   { type := "tool", content := some (String.mk (List.replicate 150 'x')),
     tool_calls := none, name := some "search" }]

/-- C10 (witness): a single `ai` message lacking `tool_calls` fails the
rendering with the lookup error. -/
def exAiNoToolCalls : Message :=
  { type := "ai", content := some "hello", tool_calls := none, name := none }

/-- Python `str.replace("Z", "+00:00")` (line 301): every `Z` is replaced. -/
def replaceZ (s : String) : String :=
  ⟨s.data.foldr (fun c acc =>
    if c = 'Z' then '+' :: '0' :: '0' :: ':' :: '0' :: '0' :: acc
    else c :: acc) []⟩

/-- The value of a decimal digit character, `none` otherwise. -/
def digitVal (c : Char) : Option Nat :=
  if c.isDigit then some (c.toNat - 48) else none

/-- Parse exactly two digits. -/
def parse2 : List Char → Option (Nat × List Char)
  | c1 :: c2 :: rest =>
    match digitVal c1, digitVal c2 with
    | some d1, some d2 => some (d1 * 10 + d2, rest)
    | _, _ => none
  | _ => none

/-- Parse exactly four digits. -/
def parse4 : List Char → Option (Nat × List Char)
  | c1 :: c2 :: c3 :: c4 :: rest =>
    match digitVal c1, digitVal c2, digitVal c3, digitVal c4 with
    | some d1, some d2, some d3, some d4 =>
      some (((d1 * 10 + d2) * 10 + d3) * 10 + d4, rest)
    | _, _, _, _ => none
  | _ => none

/-- Parse an optional UTC offset `±HH:MM` at the end of the string; the
result is minutes east of UTC (`none` in the pair = no offset, a naive
datetime). -/
def parseTZ : List Char → Option (Option Int)
  | [] => some none
  | sign :: rest =>
    if sign = '+' ∨ sign = '-' then
      match parse2 rest with
      | some (h, ':' :: rest2) =>
        match parse2 rest2 with
        | some (m, []) =>
          if h ≤ 23 ∧ m ≤ 59 then
            some (some (if sign = '+' then (h * 60 + m : Int)
                        else -(h * 60 + m : Int)))
          else none
        | _ => none
      | _ => none
    else none

/-- Parse `HH:MM[:SS]` followed by an optional offset, consuming the whole
input. -/
def parseHMS (cs : List Char) : Option (Nat × Nat × Nat × Option Int) :=
  match parse2 cs with
  | some (h, ':' :: rest) =>
    match parse2 rest with
    | some (mi, ':' :: rest2) =>
      match parse2 rest2 with
      | some (s, rest3) =>
        match parseTZ rest3 with
        | some off =>
          if h ≤ 23 ∧ mi ≤ 59 ∧ s ≤ 59 then some (h, mi, s, off) else none
        | none => none
      | none => none
    | some (mi, rest2) =>
      match parseTZ rest2 with
      | some off => if h ≤ 23 ∧ mi ≤ 59 then some (h, mi, 0, off) else none
      | none => none
    | none => none
  | _ => none

/-- Whether a year is a Gregorian leap year. -/
def isLeap (y : Nat) : Bool :=
  y % 4 == 0 && (y % 100 != 0 || y % 400 == 0)

/-- Days in a month. -/
def daysInMonth (y m : Nat) : Nat :=
  if m = 2 then (if isLeap y then 29 else 28)
  else if m = 4 ∨ m = 6 ∨ m = 9 ∨ m = 11 then 30
  else 31

/-- A parsed `datetime` value: date and time fields plus an optional UTC
offset in minutes. -/
structure PyDateTime where
  year : Nat
  month : Nat
  day : Nat
  hour : Nat
  minute : Nat
  second : Nat
  offset : Option Int
deriving Repr, DecidableEq

/-- Model of `datetime.fromisoformat` on the subset of ISO-8601 strings this code
meets: `YYYY-MM-DD`, optionally followed by a single separator character and
`HH:MM[:SS][±HH:MM]`.  Range errors — including a year below `MINYEAR = 1`
(the four-digit field already caps it at `MAXYEAR = 9999`) — and any other
shape are `none` (a `ValueError`). -/
def fromisoformat (s : String) : Option PyDateTime :=
  match parse4 s.data with
  | some (y, '-' :: r1) =>
    match parse2 r1 with
    | some (mo, '-' :: r2) =>
      match parse2 r2 with
      | some (d, rest) =>
        if 1 ≤ y ∧ 1 ≤ mo ∧ mo ≤ 12 ∧ 1 ≤ d ∧ d ≤ daysInMonth y mo then
          match rest with
          | [] => some ⟨y, mo, d, 0, 0, 0, none⟩
          | _sep :: timeCs =>
            match parseHMS timeCs with
            | some (h, mi, sec, off) => some ⟨y, mo, d, h, mi, sec, off⟩
            | none => none
        else none
      | none => none
    | _ => none
  | _ => none

/-- Days from 1970-01-01 of a civil date (Howard Hinnant's algorithm); all
intermediate values are nonnegative for years ≥ 1, so the division
convention is irrelevant. -/
def daysFromCivil (y m d : Nat) : Int :=
  let yAdj : Int := if m ≤ 2 then (y : Int) - 1 else (y : Int)
  let era : Int := yAdj / 400
  let yoe : Int := yAdj - era * 400
  let mp : Int := ((m : Int) + 9) % 12
  let doy : Int := (153 * mp + 2) / 5 + (d : Int) - 1
  let doe : Int := yoe * 365 + yoe / 4 - yoe / 100 + doy
  era * 146097 + doe - 719468

/-- The instant of a `datetime` in seconds from the epoch.  Python orders
two aware datetimes by this instant, and two naive datetimes by their
fields, which coincides with this value at offset 0; a naive value is never
compared with an aware one here (see `pyDatetimeGt`). -/
def toInstant (t : PyDateTime) : Int :=
  daysFromCivil t.year t.month t.day * 86400
    + t.hour * 3600 + t.minute * 60 + t.second - (t.offset.getD 0) * 60

/-- One thread record from `GET /threads/` (the fields `get_latest_thread`
reads). -/
structure ThreadRec where
  assistant_id : String
  thread_id : String
  updated_at : String
deriving Repr, DecidableEq

/-- The parsed `updated_at` of a thread (line 301):
`datetime.fromisoformat(updated_at.replace("Z", "+00:00"))`. -/
def parseDT (t : ThreadRec) : Option PyDateTime :=
  fromisoformat (replaceZ t.updated_at)

/-- Python `>` on two `datetime` values: two aware values compare by
instant, two naive values compare by their fields (their instants at
offset 0); comparing a naive value with an aware one raises `TypeError`. -/
def pyDatetimeGt (a b : PyDateTime) : Except Err Bool :=
  match a.offset, b.offset with
  | some _, none => .error .typeError
  | none, some _ => .error .typeError
  | _, _ => .ok (decide (toInstant b < toInstant a))

/-- Boolean form of `pyDatetimeGt`: `false` when the comparison raises. -/
def pyDatetimeGtB (a b : PyDateTime) : Bool :=
  match pyDatetimeGt a b with
  | .ok r => r
  | .error _ => false

/-- Strict comparison of two threads’ timestamps: `true` only when both
parse and the comparison is defined (same awareness) and strict. -/
def keyLtB (a b : ThreadRec) : Bool :=
  match parseDT a with
  | none => false
  | some da =>
    match parseDT b with
    | none => false
    | some db => pyDatetimeGtB db da

/-- The per-thread timestamp conversion (line 301): a `ValueError` aborts
the call. -/
def parseThread (t : ThreadRec) : Except Err (ThreadRec × PyDateTime) :=
  match fromisoformat (replaceZ t.updated_at) with
  | some d => .ok (t, d)
  | none => .error .valueError

/-- The conversion loop over all matching threads (lines 300-301). -/
def parseThreads : List ThreadRec → Except Err (List (ThreadRec × PyDateTime))
  | [] => .ok []
  | t :: ts =>
    match parseThread t with
    | .error e => .error e
    | .ok p =>
      match parseThreads ts with
      | .error e => .error e
      | .ok ps => .ok (p :: ps)

/-- The loop inside Python `max(..., key=...)` (line 304): a later element
replaces the current best only when its key compares strictly greater — so
the first maximum wins — and an undefined datetime comparison raises
`TypeError`. -/
def maxFoldDT (best : ThreadRec × PyDateTime) :
    List (ThreadRec × PyDateTime) → Except Err (ThreadRec × PyDateTime)
  | [] => .ok best
  | y :: ys =>
    match pyDatetimeGt y.2 best.2 with
    | .error e => .error e
    | .ok true => maxFoldDT y ys
    | .ok false => maxFoldDT best ys

/-- Processing of the history response (lines 309-332): `json_data[0]`
raises `IndexError` on an empty history, then
`["values"]["messages"]` is rendered.  `entries` is the decoded history
list, one message list per snapshot. -/
def histRender (entries : List (List Message)) : Except Err String :=
  match entries with
  | [] => .error .indexError
  | msgs :: _ => renderMessages msgs

/-- Embedding of `get_latest_thread` (lines 280-334).  `threads` is the decoded
`GET /threads/` response, `history` maps a thread id to its decoded history
(each entry’s `values.messages`).  The `[]` branch under `parseThreads`
mirrors `max` of an empty sequence raising `ValueError`; it is unreachable
here because the filtered list is nonempty. -/
def getLatestThread (threads : List ThreadRec)
    (history : String → List (List Message)) (assistant_id : String) :
    Except Err String :=
  match threads.filter (fun t => t.assistant_id == assistant_id) with
  | [] => .ok "Did not find threads"
  | t :: ts =>
    match parseThreads (t :: ts) with
    | .error e => .error e
    | .ok parsed =>
      match parsed with
      | [] => .error .valueError
      | p :: ps =>
        match maxFoldDT p ps with
        | .error e => .error e
        | .ok latest => histRender (history latest.1.thread_id)

/-- The two-thread example from the spec, earlier thread listed first. -/
def exThreads : List ThreadRec :=
  [{ assistant_id := "A", thread_id := "t1",
     updated_at := "2024-01-01T00:00:00Z" },
   { assistant_id := "A", thread_id := "t2",
     updated_at := "2024-02-01T00:00:00Z" }]

/-- An example history service: every thread's history is one snapshot with
one human message naming the thread. -/
def exHistory : String → List (List Message) :=
  fun tid => [[{ type := "human", content := some ("thread " ++ tid),
                 tool_calls := none, name := none }]]

/-- The later of the two example threads. -/
def exT2 : ThreadRec :=
  { assistant_id := "A", thread_id := "t2",
    updated_at := "2024-02-01T00:00:00Z" }

/-- C5: tool-list normalization in `deploy_agent`.  Every dict entry passes
through unchanged; every bare string entry `t` becomes a dict whose keys are
exactly `type`, `name`, `config` (as a set) with `type = t`,
`name = title_case(t)` and `config = {name: title_case(t)}`; in particular
`"search"` yields `{type: "search", name: "Search", config: {name: "Search"}}`. -/
theorem normalizeTool_spec :
    (∀ kvs, normalizeTool (.obj kvs) = .obj kvs)
    ∧ (∀ t, ∃ l, normalizeTool (.str t) = .obj l
        ∧ l.lookup "type" = some (.str t)
        ∧ l.lookup "name" = some (.str (pyTitle t))
        ∧ l.lookup "config" = some (.obj [("name", .str (pyTitle t))])
        ∧ (l.map Prod.fst).Perm ["type", "name", "config"])
    ∧ normalizeTool (.str "search")
        = .obj [("config", .obj [("name", .str "Search")]),
                ("type", .str "search"),
                ("name", .str "Search")] := by
  refine ⟨fun kvs => rfl, fun t => ⟨_, rfl, rfl, rfl, rfl, ?_⟩, rfl⟩
  show List.Perm ["config", "type", "name"] ["type", "name", "config"]
  decide

/-- When every metadata file decodes, the loop returns exactly the entries
whose names are outside the exclusion list, in order, shaped as
`{name, port := actionServerPort, api_spec}`. -/
theorem getActionsLoop_ok (readMeta : String → FileRead Json)
    (internal : List String) (specF : ConfigEntry → Json) :
    ∀ entries : List ConfigEntry,
      (∀ e ∈ entries, readMeta (e.path ++ "/metadata.json") = .ok (specF e)) →
      getActionsLoop readMeta internal entries
        = .ok ((entries.filter (fun e => decide (e.name ∉ internal))).map
            (fun e => { name := e.name, port := e.actionServerPort,
                        api_spec := specF e })) := by
  intro entries
  induction entries with
  | nil => intro _; rfl
  | cons e es ih =>
    intro h
    have he : readMeta (e.path ++ "/metadata.json") = .ok (specF e) :=
      h e (List.mem_cons_self e es)
    have hes := ih (fun x hx => h x (List.mem_cons_of_mem e hx))
    by_cases hmem : e.name ∈ internal
    · simp [getActionsLoop, he, hmem, hes, List.filter_cons]
    · simp [getActionsLoop, he, hmem, hes, List.filter_cons]

/-- C1: for every exclusion set and well-formed registry and metadata
files, `get_actions` returns exactly the registry entries whose names are
not excluded, in registry order, each as
`{name, port := actionServerPort, api_spec := metadata}`; no returned entry
is excluded, and an entry whose name is in `HARDCODED_INTERNAL_ACTIONS` but
not in the caller's exclusion set is still returned (the hardcoded list is
not implicitly added). -/
theorem getActions_filters_exactly (home : String)
    (readConfig : String → FileRead (List ConfigEntry))
    (readMeta : String → FileRead Json)
    (internal : List String) (entries : List ConfigEntry)
    (specF : ConfigEntry → Json)
    (hconf : readConfig (home ++ "/sema4ai-desktop/config.json") = .ok entries)
    (hmeta : ∀ e ∈ entries, readMeta (e.path ++ "/metadata.json") = .ok (specF e)) :
    getActions (some home) readConfig readMeta internal
      = .ok ((entries.filter (fun e => decide (e.name ∉ internal))).map
          (fun e => { name := e.name, port := e.actionServerPort,
                      api_spec := specF e }))
    ∧ (∀ a ∈ (entries.filter (fun e => decide (e.name ∉ internal))).map
          (fun e => ({ name := e.name, port := e.actionServerPort,
                       api_spec := specF e } : ActionPackage)),
        a.name ∉ internal)
    ∧ (∀ e ∈ entries, e.name ∈ HARDCODED_INTERNAL_ACTIONS → e.name ∉ internal →
        ({ name := e.name, port := e.actionServerPort,
           api_spec := specF e } : ActionPackage)
          ∈ (entries.filter (fun e => decide (e.name ∉ internal))).map
              (fun e => { name := e.name, port := e.actionServerPort,
                          api_spec := specF e })) := by
  refine ⟨?_, ?_, ?_⟩
  · show getActionsHome home readConfig readMeta internal = _
    unfold getActionsHome
    rw [hconf]
    exact getActionsLoop_ok readMeta internal specF entries hmeta
  · intro a ha
    rcases List.mem_map.mp ha with ⟨e, he, rfl⟩
    rcases List.mem_filter.mp he with ⟨_, hdec⟩
    exact of_decide_eq_true hdec
  · intro e he _ hnot
    exact List.mem_map_of_mem _ (List.mem_filter.mpr ⟨he, decide_eq_true hnot⟩)

/-- A missing or malformed metadata file for any entry aborts the loop with
an error, whether or not the entry is excluded. -/
theorem getActionsLoop_error (readMeta : String → FileRead Json)
    (internal : List String) :
    ∀ (entries : List ConfigEntry) (e : ConfigEntry), e ∈ entries →
      (readMeta (e.path ++ "/metadata.json") = .missing
        ∨ readMeta (e.path ++ "/metadata.json") = .malformed) →
      isError (getActionsLoop readMeta internal entries) = true := by
  intro entries
  induction entries with
  | nil => intro e he _; cases he
  | cons z zs ih =>
    intro e he hbad
    rcases List.mem_cons.mp he with rfl | hz
    · rcases hbad with hb | hb <;> simp [getActionsLoop, hb, isError]
    · have hrest := ih e hz hbad
      unfold getActionsLoop
      rcases hm : readMeta (z.path ++ "/metadata.json") with _ | _ | v
      · rfl
      · rfl
      · by_cases hmem : z.name ∈ internal
        · simpa [hmem] using hrest
        · rcases hr : getActionsLoop readMeta internal zs with err | rest
          · simp [hmem, hr, isError]
          · rw [hr] at hrest
            exact absurd hrest (by simp [isError])

/-- C4: a missing desktop config file fails the whole `get_actions` call
with the not-found error, and a missing or malformed `metadata.json` for any
single registry entry — including an entry whose name is in the exclusion
set — makes the whole call an error: no partial or empty list is returned. -/
theorem getActions_fails_whole (home : String)
    (readConfig : String → FileRead (List ConfigEntry))
    (readMeta : String → FileRead Json) (internal : List String) :
    (readConfig (home ++ "/sema4ai-desktop/config.json") = .missing →
      getActions (some home) readConfig readMeta internal = .error .fileNotFound)
    ∧ (∀ entries e,
        readConfig (home ++ "/sema4ai-desktop/config.json") = .ok entries →
        e ∈ entries →
        (readMeta (e.path ++ "/metadata.json") = .missing
          ∨ readMeta (e.path ++ "/metadata.json") = .malformed) →
        isError (getActions (some home) readConfig readMeta internal) = true) := by
  constructor
  · intro hmiss
    show getActionsHome home readConfig readMeta internal = _
    unfold getActionsHome
    rw [hmiss]
  · intro entries e hconf he hbad
    show isError (getActionsHome home readConfig readMeta internal) = true
    unfold getActionsHome
    rw [hconf]
    exact getActionsLoop_error readMeta internal entries e he hbad

/-- C2 (counterexample): the `config.configurable` map of the payload POSTed
by `deploy_agent` has seven keys, not nine, at a concrete well-formed
input. -/
theorem deployAgentPayload_not_nine_keys :
    (configurableKeys (deployAgentPayload exFs exAgent)).map List.length = some 7
    ∧ ¬ (configurableKeys (deployAgentPayload exFs exAgent)).map List.length
        = some 9 := by
  constructor
  · rfl
  · decide

/-- C2 (amended): whenever the retrieval prompt resolves, `deploy_agent`
builds the payload `{name, config: {configurable: {...}}}` whose
`configurable` map has exactly seven fixed keys — `retrieval_description`,
`agent_type` (the agent's `model`), `system_message`, `tools`, `type`
(literal `"agent"`), `interrupt_before_action` (literal `false`) and
`description`. -/
theorem deployAgentPayload_seven_keys (fs : String → Option String)
    (agent : Agent) (rp : String)
    (hr : fs agent.retrievalPrompt = some rp) :
    deployAgentPayload fs agent
      = .ok (.obj
        [("name", .str agent.name),
         ("config", .obj
           [("configurable", .obj
             [("type==agent/retrieval_description", .str rp),
              ("type==agent/agent_type", .str agent.model),
              ("type==agent/system_message",
                .str ((fs agent.systemPrompt).getD agent.systemPrompt)),
              ("type==agent/tools", .arr (toolsOf agent)),
              ("type", .str "agent"),
              ("type==agent/interrupt_before_action", .bool false),
              ("type==agent/description", .str agent.description)])])])
    ∧ configurableKeys (deployAgentPayload fs agent)
      = some ["type==agent/retrieval_description", "type==agent/agent_type",
              "type==agent/system_message", "type==agent/tools", "type",
              "type==agent/interrupt_before_action",
              "type==agent/description"] := by
  constructor
  · unfold deployAgentPayload
    rw [hr]
    cases hs : fs agent.systemPrompt <;> rfl
  · unfold configurableKeys deployAgentPayload
    rw [hr]
    rfl

/-- C2 (witness for the amended claim): the payload at the example input. -/
theorem deployAgentPayload_seven_keys_witness :
    deployAgentPayload exFs exAgent
      = .ok (.obj
        [("name", .str "Tutor"),
         ("config", .obj
           [("configurable", .obj
             [("type==agent/retrieval_description", .str "RETRIEVAL TEXT"),
              ("type==agent/agent_type", .str "GPT 4 Turbo"),
              ("type==agent/system_message", .str "You are a tutor."),
              ("type==agent/tools",
                .arr [.obj [("config", .obj [("name", .str "Search")]),
                            ("type", .str "search"),
                            ("name", .str "Search")]]),
              ("type", .str "agent"),
              ("type==agent/interrupt_before_action", .bool false),
              ("type==agent/description", .str "A tutor agent")])])])
    ∧ configurableKeys (deployAgentPayload exFs exAgent)
      = some ["type==agent/retrieval_description", "type==agent/agent_type",
              "type==agent/system_message", "type==agent/tools", "type",
              "type==agent/interrupt_before_action",
              "type==agent/description"] :=
  deployAgentPayload_seven_keys exFs exAgent "RETRIEVAL TEXT" rfl

/-- C3: in `deploy_agent`, an unreadable `retrieval-prompt` path is a hard
failure of the whole payload construction, while an unreadable
`system-prompt` path falls back to using the given string verbatim as the
prompt text (and a readable one is replaced by the file's content). -/
theorem deployAgent_prompt_fallback (fs : String → Option String)
    (agent : Agent) :
    (fs agent.retrievalPrompt = none →
      deployAgentPayload fs agent = .error .fileNotFound)
    ∧ (∀ rp, fs agent.retrievalPrompt = some rp →
        (fs agent.systemPrompt = none →
          payloadSystemMessage (deployAgentPayload fs agent)
            = some (.str agent.systemPrompt))
        ∧ (∀ text, fs agent.systemPrompt = some text →
          payloadSystemMessage (deployAgentPayload fs agent)
            = some (.str text))) := by
  refine ⟨?_, ?_⟩
  · intro hr
    unfold deployAgentPayload
    rw [hr]
  · intro rp hr
    constructor
    · intro hs
      unfold deployAgentPayload
      rw [hr, hs]
      rfl
    · intro text hs
      unfold deployAgentPayload
      rw [hr, hs]
      rfl

/-- C3 (witness): a missing retrieval prompt fails; a system prompt that is
not a readable path is used verbatim; a readable system prompt path is
replaced by the file content. -/
theorem deployAgent_prompt_fallback_witness :
    deployAgentPayload (fun _ => none) exAgent = .error .fileNotFound
    ∧ payloadSystemMessage (deployAgentPayload exFs exAgent)
        = some (.str "You are a tutor.")
    ∧ payloadSystemMessage
        (deployAgentPayload (fun _ => some "FILE TEXT") exAgent)
        = some (.str "FILE TEXT") :=
  ⟨(deployAgent_prompt_fallback (fun _ => none) exAgent).1 rfl,
   ((deployAgent_prompt_fallback exFs exAgent).2 "RETRIEVAL TEXT" rfl).1 rfl,
   ((deployAgent_prompt_fallback (fun _ => some "FILE TEXT") exAgent).2
     "FILE TEXT" rfl).2 "FILE TEXT" rfl⟩

/-- C1 (witness): with exclusion set `{"Mail"}`, `get_actions` returns the
other two registry entries in order — including `"Thread Monitor"`, which is
on the hardcoded internal list but not excluded by the caller. -/
theorem getActions_filters_exactly_witness :
    getActions (some "/home") exReadConfig exReadMeta ["Mail"]
      = .ok [{ name := "Sheets", port := 8101,
               api_spec := .str "/a/metadata.json" },
             { name := "Thread Monitor", port := 8102,
               api_spec := .str "/b/metadata.json" }] :=
  (getActions_filters_exactly "/home" exReadConfig exReadMeta ["Mail"]
    exEntries (fun e => .str (e.path ++ "/metadata.json")) rfl
    (fun _ _ => rfl)).1

/-- C4 (witness): a missing config file yields the not-found error, and a
missing metadata file of an entry that is itself excluded still makes the
whole call an error. -/
theorem getActions_fails_whole_witness :
    getActions (some "/home") (fun _ => .missing) exReadMeta ["Mail"]
      = .error .fileNotFound
    ∧ isError (getActions (some "/home") exReadConfig exReadMetaBad
        ["Thread Monitor"]) = true :=
  ⟨(getActions_fails_whole "/home" (fun _ => .missing) exReadMeta ["Mail"]).1
    rfl,
   (getActions_fails_whole "/home" exReadConfig exReadMetaBad
     ["Thread Monitor"]).2 exEntries
     { name := "Thread Monitor", path := "/b", actionServerPort := 8102 }
     rfl (by decide) (Or.inl rfl)⟩

/-- C9: `get_agent_runbook` extracts
`config.configurable["type==agent/system_message"]` from the fetched
assistant, and every failure of that lookup — unparseable response, missing
key, non-dict node — yields exactly the literal string
`"Did not find the runbook"` instead of an exception. -/
theorem getAgentRunbook_sentinel (body : Option Json) :
    (runbookLookup body = none →
      getAgentRunbook body = .str "Did not find the runbook")
    ∧ (∀ v, runbookLookup body = some v → getAgentRunbook body = v) := by
  have h : runbookLookup body = (match tryRunbook body with
      | .ok v => some v
      | .error _ => none) := by
    unfold runbookLookup tryRunbook
    rcases body with _ | j
    · rfl
    · rcases hc : j.get? "config" with _ | c
      · simp [hc]
      · rcases hcc : c.get? "configurable" with _ | cc
        · simp [hc, hcc]
        · rcases hv : cc.get? "type==agent/system_message" with _ | v
          · simp [hc, hcc, hv]
          · simp [hc, hcc, hv]
  cases ht : tryRunbook body with
  | error e =>
    rw [ht] at h
    refine ⟨fun _ => ?_, fun v hv => ?_⟩
    · unfold getAgentRunbook
      rw [ht]
    · rw [h] at hv
      cases hv
  | ok v =>
    rw [ht] at h
    refine ⟨fun hn => ?_, fun w hw => ?_⟩
    · rw [h] at hn
      cases hn
    · rw [h] at hw
      injection hw with hw
      unfold getAgentRunbook
      rw [ht, hw]

/-- C9 (witness): an unparseable response yields the sentinel; a well-formed
response yields the stored runbook. -/
theorem getAgentRunbook_sentinel_witness :
    getAgentRunbook none = .str "Did not find the runbook"
    ∧ getAgentRunbook (some exAssistantBody) = .str "THE RUNBOOK" :=
  ⟨(getAgentRunbook_sentinel none).1 rfl,
   (getAgentRunbook_sentinel (some exAssistantBody)).2 (.str "THE RUNBOOK")
     rfl⟩

/-- C8 (counterexample): `update_agent_runbook` CAN raise.  At a concrete
well-formed assistant, a PUT response with status 500 and a body that does
not parse as JSON makes the call raise the JSON decode error instead of
returning a string. -/
theorem updateAgentRunbook_raises :
    updateAgentRunbook (some exAssistantBody) "NEW RUNBOOK"
        (fun _ => (500, none)) = .error .jsonDecodeError
    ∧ ∀ s, updateAgentRunbook (some exAssistantBody) "NEW RUNBOOK"
        (fun _ => (500, none)) ≠ .ok s := by
  refine ⟨rfl, fun s h => ?_⟩
  rw [show updateAgentRunbook (some exAssistantBody) "NEW RUNBOOK"
      (fun _ => (500, none)) = .error .jsonDecodeError from rfl] at h
  cases h

/-- C8 (amended): for the PUT response in `update_agent_runbook`, HTTP 200
returns the fixed success string; a non-200 response whose body parses as
JSON returns a string containing the numeric status code and the parsed
body; a non-200 response with an unparseable body raises the JSON decode
error rather than returning. -/
theorem putResponseResult_spec (status : Nat) (body : Option Json) :
    (status = 200 → putResponseResult status body = .ok "Successfully updated!")
    ∧ (status ≠ 200 → ∀ j, body = some j →
        putResponseResult status body
          = .ok ("Failed with status code: " ++ toString status
              ++ ", message is " ++ pyStr j))
    ∧ (status ≠ 200 → body = none →
        putResponseResult status body = .error .jsonDecodeError) := by
  refine ⟨fun h => ?_, fun h j hb => ?_, fun h hb => ?_⟩
  · simp [putResponseResult, h]
  · simp [putResponseResult, h, hb]
  · simp [putResponseResult, h, hb]

/-- C8 (witness for the amended claim): status 200 succeeds; status 404
with body `{"detail": "Not found"}` yields the failure string embedding
both. -/
theorem putResponseResult_spec_witness :
    putResponseResult 200 (some (.obj [("detail", .str "Not found")]))
      = .ok "Successfully updated!"
    ∧ putResponseResult 404 (some (.obj [("detail", .str "Not found")]))
      = .ok ("Failed with status code: 404, message is "
          ++ "\x7b\x27detail\x27: \x27Not found\x27\x7d")
    ∧ putResponseResult 404 none = .error .jsonDecodeError := by
  refine ⟨(putResponseResult_spec 200
      (some (.obj [("detail", .str "Not found")]))).1 rfl, ?_, ?_⟩
  · have h := (putResponseResult_spec 404
      (some (.obj [("detail", .str "Not found")]))).2.1 (by decide)
      (.obj [("detail", .str "Not found")]) rfl
    exact h.trans rfl
  · exact (putResponseResult_spec 404 none).2.2 (by decide) rfl

/-- The loop renders the spec's line for every message when all accessed
fields are present. -/
theorem renderLoop_ok :
    ∀ msgs : List Message, (∀ m ∈ msgs, fieldsPresent m) →
      renderLoop msgs = .ok (msgs.filterMap specLine) := by
  intro msgs
  induction msgs with
  | nil => intro _; rfl
  | cons m ms ih =>
    intro h
    have hm := h m (List.mem_cons_self m ms)
    have hrest := ih (fun x hx => h x (List.mem_cons_of_mem m hx))
    by_cases hai : m.type = "ai"
    · obtain ⟨tc, htc⟩ := Option.isSome_iff_exists.mp (hm.1 hai).1
      obtain ⟨c, hc⟩ := Option.isSome_iff_exists.mp (hm.1 hai).2
      by_cases hemp : tc.isEmpty
      · simp [renderLoop, hai, htc, hc, hemp, hrest, List.filterMap_cons,
          specLine]
      · simp [renderLoop, hai, htc, hc, hemp, hrest, List.filterMap_cons,
          specLine]
    · by_cases hhum : m.type = "human"
      · obtain ⟨c, hc⟩ := Option.isSome_iff_exists.mp (hm.2.1 hhum)
        simp [renderLoop, hai, hhum, hc, hrest, List.filterMap_cons, specLine]
      · by_cases htool : m.type = "tool"
        · obtain ⟨n, hn⟩ := Option.isSome_iff_exists.mp (hm.2.2 htool).1
          obtain ⟨c, hc⟩ := Option.isSome_iff_exists.mp (hm.2.2 htool).2
          simp [renderLoop, hai, hhum, htool, hn, hc, hrest,
            List.filterMap_cons, specLine]
        · simp [renderLoop, hai, hhum, htool, hrest, List.filterMap_cons,
            specLine]

/-- C7: when every message carries the fields its branch reads, the
transcript is exactly the spec's per-message lines joined with a blank line
between them. -/
theorem renderMessages_renders (msgs : List Message)
    (h : ∀ m ∈ msgs, fieldsPresent m) :
    renderMessages msgs
      = .ok (String.intercalate "\n\n" (msgs.filterMap specLine)) := by
  unfold renderMessages
  rw [renderLoop_ok msgs h]

set_option maxRecDepth 4000 in
/-- C7 (witness): the example messages render exactly as
`"Human: hi\n\nAI: hello\n\nTool: search\n  Response: " + "x"*100`. -/
theorem renderMessages_renders_witness :
    renderMessages exMsgs
      = .ok ("Human: hi\n\nAI: hello\n\nTool: search\n  Response: "
          ++ String.mk (List.replicate 100 'x')) := by
  have h := renderMessages_renders exMsgs (by decide)
  exact h.trans (by rfl)

/-- C10: an `ai` message with no `tool_calls` field makes the whole
rendering fail with the lookup (`KeyError`) error — it is neither rendered
nor silently dropped, whatever the rest of the message list is. -/
theorem renderMessages_missing_tool_calls (msgs : List Message) (m : Message)
    (hmem : m ∈ msgs) (hai : m.type = "ai") (htc : m.tool_calls = none) :
    renderMessages msgs = .error .keyError := by
  suffices h : renderLoop msgs = .error .keyError by
    unfold renderMessages
    rw [h]
  induction msgs with
  | nil => cases hmem
  | cons z zs ih =>
    rcases List.mem_cons.mp hmem with rfl | hz
    · simp [renderLoop, hai, htc]
    · have hrest := ih hz
      by_cases h1 : z.type = "ai"
      · rcases hztc : z.tool_calls with _ | tc
        · simp [renderLoop, h1, hztc]
        · by_cases hemp : tc.isEmpty
          · rcases hzc : z.content with _ | c
            · simp [renderLoop, h1, hztc, hemp, hzc]
            · simp [renderLoop, h1, hztc, hemp, hzc, hrest]
          · simp [renderLoop, h1, hztc, hemp, hrest]
      · by_cases h2 : z.type = "human"
        · rcases hzc : z.content with _ | c
          · simp [renderLoop, h1, h2, hzc]
          · simp [renderLoop, h1, h2, hzc, hrest]
        · by_cases h3 : z.type = "tool"
          · rcases hzn : z.name with _ | n
            · simp [renderLoop, h1, h2, h3, hzn]
            · rcases hzc : z.content with _ | c
              · simp [renderLoop, h1, h2, h3, hzn, hzc]
              · simp [renderLoop, h1, h2, h3, hzn, hzc, hrest]
          · simp [renderLoop, h1, h2, h3, hrest]

theorem renderMessages_missing_tool_calls_witness :
    renderMessages [exAiNoToolCalls] = .error .keyError :=
  renderMessages_missing_tool_calls _ _ (List.Mem.head _) rfl rfl

/-- A comparison of two datetimes of the same awareness never raises and
compares instants. -/
theorem pyDatetimeGt_ok (a b : PyDateTime)
    (h : a.offset.isSome = b.offset.isSome) :
    pyDatetimeGt a b = .ok (decide (toInstant b < toInstant a)) := by
  unfold pyDatetimeGt
  rcases ha : a.offset with _ | oa <;> rcases hb : b.offset with _ | ob <;>
    rw [ha, hb] at h <;> simp at h

/-- A `true` result of `pyDatetimeGt` means equal awareness and a strict
instant inequality. -/
theorem pyDatetimeGt_true {a b : PyDateTime} (h : pyDatetimeGt a b = .ok true) :
    a.offset.isSome = b.offset.isSome ∧ toInstant b < toInstant a := by
  unfold pyDatetimeGt at h
  rcases ha : a.offset with _ | oa <;> rcases hb : b.offset with _ | ob <;>
    rw [ha, hb] at h <;> simp at h <;> exact ⟨rfl, h⟩

/-- What a `true` strict key comparison of two threads gives: both parse,
with the same awareness, and the instants compare strictly. -/
theorem keyLtB_true {y x : ThreadRec} (h : keyLtB y x = true) :
    ∃ dy dx, parseDT y = some dy ∧ parseDT x = some dx
      ∧ dy.offset.isSome = dx.offset.isSome
      ∧ toInstant dy < toInstant dx := by
  unfold keyLtB at h
  rcases hy : parseDT y with _ | dy <;> rw [hy] at h
  · simp at h
  · rcases hx : parseDT x with _ | dx <;> rw [hx] at h
    · simp at h
    · have h2 : pyDatetimeGtB dx dy = true := h
      unfold pyDatetimeGtB at h2
      rcases hg : pyDatetimeGt dx dy with e | r <;> rw [hg] at h2
      · simp at h2
      · simp at h2
        rw [h2] at hg
        rcases pyDatetimeGt_true hg with ⟨haw, hlt⟩
        exact ⟨dy, dx, rfl, rfl, haw.symm, hlt⟩

/-- The fold behind `max(..., key=...)` returns the unique strict maximum
whenever one is among the accumulator and the list and all keys share one
awareness. -/
theorem maxFoldDT_eq (x : ThreadRec × PyDateTime) :
    ∀ (l : List (ThreadRec × PyDateTime)) (acc : ThreadRec × PyDateTime),
      (acc = x ∨ x ∈ l) →
      (∀ y, (y = acc ∨ y ∈ l) → (y.2).offset.isSome = (x.2).offset.isSome) →
      (∀ y, (y = acc ∨ y ∈ l) → y ≠ x → toInstant y.2 < toInstant x.2) →
      maxFoldDT acc l = .ok x := by
  intro l
  induction l with
  | nil =>
    intro acc hmem _ _
    rcases hmem with hax | hm
    · rw [hax]
      rfl
    · cases hm
  | cons z zs ih =>
    intro acc hmem haw hlt
    have hawz : (z.2).offset.isSome = (acc.2).offset.isSome := by
      rw [haw z (Or.inr (List.mem_cons_self z zs)), haw acc (Or.inl rfl)]
    show (match pyDatetimeGt z.2 acc.2 with
      | Except.error e => (Except.error e : Except Err (ThreadRec × PyDateTime))
      | Except.ok true => maxFoldDT z zs
      | Except.ok false => maxFoldDT acc zs) = .ok x
    rw [pyDatetimeGt_ok z.2 acc.2 hawz]
    cases hd : decide (toInstant acc.2 < toInstant z.2) with
    | true =>
      have hgt := of_decide_eq_true hd
      show maxFoldDT z zs = Except.ok x
      refine ih z ?_ ?_ ?_
      · rcases hmem with hax | hm
        · by_cases hzx : z = x
          · exact Or.inl hzx
          · have hlz := hlt z (Or.inr (List.mem_cons_self z zs)) hzx
            rw [hax] at hgt
            exact absurd hgt (by omega)
        · rcases List.mem_cons.mp hm with hxz | hm2
          · exact Or.inl hxz.symm
          · exact Or.inr hm2
      · intro y hy
        rcases hy with rfl | hy2
        · exact haw y (Or.inr (List.mem_cons_self y zs))
        · exact haw y (Or.inr (List.mem_cons_of_mem z hy2))
      · intro y hy hyx
        rcases hy with rfl | hy2
        · exact hlt y (Or.inr (List.mem_cons_self y zs)) hyx
        · exact hlt y (Or.inr (List.mem_cons_of_mem z hy2)) hyx
    | false =>
      have hngt := of_decide_eq_false hd
      show maxFoldDT acc zs = Except.ok x
      refine ih acc ?_ ?_ ?_
      · rcases hmem with hax | hm
        · exact Or.inl hax
        · rcases List.mem_cons.mp hm with hxz | hm2
          · by_cases hax : acc = x
            · exact Or.inl hax
            · have hla := hlt acc (Or.inl rfl) hax
              rw [hxz] at hla
              exact absurd hla hngt
          · exact Or.inr hm2
      · intro y hy
        rcases hy with rfl | hy2
        · exact haw y (Or.inl rfl)
        · exact haw y (Or.inr (List.mem_cons_of_mem z hy2))
      · intro y hy hyx
        rcases hy with rfl | hy2
        · exact hlt y (Or.inl rfl) hyx
        · exact hlt y (Or.inr (List.mem_cons_of_mem z hy2)) hyx

/-- When every thread's timestamp parses, the conversion loop succeeds and
pairs each thread, in order, with its parsed datetime. -/
theorem parseThreads_ok :
    ∀ ts : List ThreadRec, (∀ t ∈ ts, (parseDT t).isSome) →
      ∃ ps, parseThreads ts = .ok ps
        ∧ ps.map Prod.fst = ts
        ∧ ∀ p ∈ ps, parseDT p.1 = some p.2 := by
  intro ts
  induction ts with
  | nil =>
    intro _
    exact ⟨[], rfl, rfl, fun p hp => absurd hp (List.not_mem_nil p)⟩
  | cons t ts ih =>
    intro h
    obtain ⟨d, hd⟩ :=
      Option.isSome_iff_exists.mp (h t (List.mem_cons_self t ts))
    obtain ⟨ps, hps, hmap, hall⟩ :=
      ih (fun s hs => h s (List.mem_cons_of_mem t hs))
    have hpt : parseThread t = .ok (t, d) := by
      unfold parseThread
      unfold parseDT at hd
      rw [hd]
    refine ⟨(t, d) :: ps, ?_, ?_, ?_⟩
    · unfold parseThreads
      rw [hpt, hps]
    · simp [hmap]
    · intro p hp
      rcases List.mem_cons.mp hp with rfl | hp2
      · exact hd
      · exact hall p hp2

/-- C6: `get_latest_thread` filters the thread list to the given assistant;
with no match it returns exactly `"Did not find threads"`, and otherwise it
selects the thread whose parsed `updated_at` (trailing `Z` read as
`+00:00`) is the strict maximum — `keyLtB y x = true` demands that both
timestamps parse, share one awareness (so Python's comparison is defined —
mixed naive/aware lists raise `TypeError` instead) and compare strictly —
and processes that thread's history.  The characterization is
membership-based, so the selection does not depend on the list order. -/
theorem getLatestThread_selects_latest (threads : List ThreadRec)
    (history : String → List (List Message)) (aid : String) :
    (threads.filter (fun t => t.assistant_id == aid) = [] →
      getLatestThread threads history aid = .ok "Did not find threads")
    ∧ (∀ x, x ∈ threads → x.assistant_id = aid → (parseDT x).isSome →
        (∀ y ∈ threads, y.assistant_id = aid → y ≠ x → keyLtB y x = true) →
        getLatestThread threads history aid
          = histRender (history x.thread_id)) := by
  constructor
  · intro hf
    unfold getLatestThread
    rw [hf]
  · intro x hx hxa hxk hmax
    obtain ⟨dx, hdx⟩ := Option.isSome_iff_exists.mp hxk
    have hxf : x ∈ threads.filter (fun t => t.assistant_id == aid) :=
      List.mem_filter.mpr ⟨hx, by simp [hxa]⟩
    have hallk : ∀ t ∈ threads.filter (fun t => t.assistant_id == aid),
        (parseDT t).isSome := by
      intro t ht
      rcases List.mem_filter.mp ht with ⟨htmem, hta⟩
      by_cases htx : t = x
      · rw [htx]
        exact hxk
      · obtain ⟨dy, dx2, h1, _, _, _⟩ :=
          keyLtB_true (hmax t htmem (by simpa using hta) htx)
        simp [h1]
    have hprops : ∀ t ∈ threads.filter (fun t => t.assistant_id == aid),
        ∀ dt, parseDT t = some dt →
          dt.offset.isSome = dx.offset.isSome
          ∧ (t ≠ x → toInstant dt < toInstant dx) := by
      intro t ht dt hdt
      rcases List.mem_filter.mp ht with ⟨htmem, hta⟩
      by_cases htx : t = x
      · rw [htx] at hdt
        rw [hdx] at hdt
        injection hdt with hdd
        constructor
        · rw [← hdd]
        · intro hne
          exact absurd htx hne
      · obtain ⟨dy, dx2, h1, h2, haw, hlt⟩ :=
          keyLtB_true (hmax t htmem (by simpa using hta) htx)
        rw [hdt] at h1
        rw [hdx] at h2
        injection h1 with h1
        injection h2 with h2
        rw [← h1, ← h2] at haw
        rw [← h1, ← h2] at hlt
        exact ⟨haw, fun _ => hlt⟩
    rcases hfil : threads.filter (fun t => t.assistant_id == aid)
      with _ | ⟨t, ts⟩
    · rw [hfil] at hxf
      cases hxf
    · rw [hfil] at hallk hxf hprops
      obtain ⟨ps, hps, hmap, hall⟩ := parseThreads_ok (t :: ts) hallk
      have hxps : (x, dx) ∈ ps := by
        have hxin : x ∈ ps.map Prod.fst := by
          rw [hmap]
          exact hxf
        rcases List.mem_map.mp hxin with ⟨p0, hp0, hpx⟩
        have hpk := hall p0 hp0
        rw [hpx] at hpk
        rw [hdx] at hpk
        have hp2 : p0 = (x, dx) := by
          rcases p0 with ⟨p1, p2⟩
          cases hpk
          cases hpx
          rfl
        rw [hp2] at hp0
        exact hp0
      have hawq : ∀ q ∈ ps, (q.2).offset.isSome = dx.offset.isSome := by
        intro q hq
        have hq1 : q.1 ∈ t :: ts := by
          rw [← hmap]
          exact List.mem_map_of_mem Prod.fst hq
        exact (hprops q.1 hq1 q.2 (hall q hq)).1
      have hltq : ∀ q ∈ ps, q ≠ (x, dx) → toInstant q.2 < toInstant dx := by
        intro q hq hne
        have hq1 : q.1 ∈ t :: ts := by
          rw [← hmap]
          exact List.mem_map_of_mem Prod.fst hq
        have hp := hprops q.1 hq1 q.2 (hall q hq)
        by_cases hq1x : q.1 = x
        · have hqk := hall q hq
          rw [hq1x, hdx] at hqk
          have : q = (x, dx) := by
            rcases q with ⟨q1, q2⟩
            cases hqk
            cases hq1x
            rfl
          exact absurd this hne
        · exact hp.2 hq1x
      rcases hpps : ps with _ | ⟨p, ps2⟩
      · rw [hpps] at hmap
        simp at hmap
      · rw [hpps] at hxps hawq hltq hps
        have hsel : maxFoldDT p ps2 = .ok (x, dx) := by
          refine maxFoldDT_eq (x, dx) ps2 p ?_ ?_ ?_
          · rcases List.mem_cons.mp hxps with hxp | h2
            · exact Or.inl hxp.symm
            · exact Or.inr h2
          · intro y hy
            rcases hy with rfl | hy2
            · exact hawq y (List.mem_cons_self y ps2)
            · exact hawq y (List.mem_cons_of_mem p hy2)
          · intro y hy hne
            rcases hy with rfl | hy2
            · exact hltq y (List.mem_cons_self y ps2) hne
            · exact hltq y (List.mem_cons_of_mem p hy2) hne
        simp only [getLatestThread, hfil, hps, hsel]

/-- C6 (witness): between the two example threads — both offset-aware, so
every comparison is defined — the summarizer picks `t2` (the later
timestamp) even though `t1` is listed first, and renders its history. -/
theorem getLatestThread_selects_latest_witness :
    getLatestThread exThreads exHistory "A" = .ok "Human: thread t2" := by
  have h := (getLatestThread_selects_latest exThreads exHistory "A").2 exT2
    (by decide) rfl (by decide) (by decide)
  exact h.trans (by rfl)
